import Mathlib

/-!
Shallow embedding of the Ordia dashboard state module
(`src/frontend/src/App.tsx`, hook `useOrdiaaState`).

The application state is a record of four fields: an ordered list of
habits, and three string-keyed mappings (completion marks, daily logs,
per-day todo lists).  JavaScript objects used as string-keyed maps are
embedded as association lists without duplicate keys; the object spread
`{...m, [k]: v}` is embedded as `mapInsert`, which replaces the first
entry with key `k` in place (keeping its position) or appends a fresh
entry at the end — exactly the key-ordering behaviour of the JS spread.

Dates: the repository's `formatDate` lives in `@/lib/storage`, which is
not under `src/`; dates are therefore modelled abstractly as integer day
indices (see `formatDate` below).  The nondeterministic fresh-id source
`Date.now()` is passed in as an explicit argument to `addTodo` and
`addHabit`.
-/

/-- Priority of a todo item: `"low" | "medium" | "high"`. -/
inductive TodoPriority
  | low
  | medium
  | high
deriving DecidableEq, Repr

/-- Workflow status of a todo item: `"todo" | "doing" | "done"`. -/
inductive TodoStatus
  | todo
  | doing
  | done
deriving DecidableEq, Repr

/-- A habit: `{id: string, name: string, emoji: string}`. -/
structure Habit where
  id : String
  name : String
  emoji : String
deriving DecidableEq, Repr

/-- A todo item, as in `lib/types`:
`{id, text, completed, status, priority, createdAt}`. -/
structure TodoItem where
  id : String
  text : String
  completed : Bool
  status : TodoStatus
  priority : TodoPriority
  createdAt : String
deriving DecidableEq, Repr

/-- A JavaScript object used as a string-keyed map, embedded as an
association list (insertion order preserved, as JS objects do for
string keys). -/
abbrev StrMap (α : Type) := List (String × α)

/-- Lookup in a string-keyed object: `m[k]`, `none` for `undefined`. -/
def mapFind? (m : StrMap α) (k : String) : Option α :=
  match m with
  | [] => none
  | (k', v) :: rest => if k' == k then some v else mapFind? rest k

/-- The object spread `{...m, [k]: v}`: if `k` is present its entry is
overwritten in place (keeping its position in key order), otherwise a
new entry is appended at the end. -/
def mapInsert (m : StrMap α) (k : String) (v : α) : StrMap α :=
  match m with
  | [] => [(k, v)]
  | (k', v') :: rest =>
    if k' == k then (k, v) :: rest else (k', v') :: mapInsert rest k v

/-- The aggregate application state (`OrdiaaState` in `lib/types`):
`{habits, completions, logs, todos}`. -/
structure OrdiaaState where
  habits : List Habit
  completions : StrMap Bool
  logs : StrMap String
  todos : StrMap (List TodoItem)
deriving DecidableEq, Repr

/-- A date value.  Modelled from the spec: dates are day-granular (the
canonical key format "uses a canonical date-only string format (no time
component, no timezone offset)"), so a date is an integer day index and
`new Date(today)` shifted by `setDate(getDate() - i)` is `today - i`. -/
abbrev JsDate := Int

/-- Modelled from the spec: `formatDate` (in `@/lib/storage`, not under
`src/`) is the "canonical date-only representation … used as the sole
key format for all date-indexed mappings", "pure and timezone-stable for
a given local date"; on day indices this is the decimal rendering of the
index (a canonical, injective day-granular string). -/
def formatDate (date : JsDate) : String :=
  toString date

/-- Modelled from the spec: the display formatting
`toLocaleDateString("en-US", {month: "short", day: "numeric"})` used by
`getCompletionHistory` is presentation glue; it is a pure function of
the date, modelled as a tagged rendering of the day index. -/
def displayDate (date : JsDate) : String :=
  "day " ++ toString date

/-- `toggleHabit(habitId, date)`: flips the boolean at key
`` `${habitId}-${dateStr}` `` (an absent key reads as `undefined`, so
`!prev.completions[key]` is `true`). -/
def toggleHabit (s : OrdiaaState) (habitId : String) (date : JsDate) : OrdiaaState :=
  let dateStr := formatDate date
  let key := habitId ++ "-" ++ dateStr
  { s with completions :=
      mapInsert s.completions key (!((mapFind? s.completions key).getD false)) }

/-- `updateLog(date, text)`: sets `logs[dateStr] = text`. -/
def updateLog (s : OrdiaaState) (date : JsDate) (text : String) : OrdiaaState :=
  let dateStr := formatDate date
  { s with logs := mapInsert s.logs dateStr text }

/-- `getLog(date)`: `state.logs[formatDate(date)] || ""` — the JS `||`
yields the fallback both for an absent key (`undefined`) and for a
stored empty string (falsy). -/
def getLog (s : OrdiaaState) (date : JsDate) : String :=
  match mapFind? s.logs (formatDate date) with
  | none => ""
  | some t => if t == "" then "" else t

/-- `getTodos(date)`: `state.todos[formatDate(date)] || []` — a present
array is truthy (even when empty), so only an absent key falls back. -/
def getTodos (s : OrdiaaState) (date : JsDate) : List TodoItem :=
  (mapFind? s.todos (formatDate date)).getD []

/-- `addTodo(date, text, priority, status)`: builds a new `TodoItem`
with `id = Date.now().toString()` (the clock reading `now` is passed in
explicitly), `completed = (status === "done")`,
`createdAt = dateStr`, and appends it to that date's sequence. -/
def addTodo (s : OrdiaaState) (now : Int) (date : JsDate) (text : String)
    (priority : TodoPriority) (stat : TodoStatus) : OrdiaaState :=
  let dateStr := formatDate date
  let newTodo : TodoItem :=
    { id := toString now
      text := text
      completed := stat == TodoStatus.done
      status := stat
      priority := priority
      createdAt := dateStr }
  { s with todos :=
      mapInsert s.todos dateStr (((mapFind? s.todos dateStr).getD []) ++ [newTodo]) }

/-- `toggleTodo(date, todoId)`: maps over that date's sequence, flipping
`completed` of the item(s) whose id matches and setting `status` to
`"done"` when now completed, else `"todo"`. -/
def toggleTodo (s : OrdiaaState) (date : JsDate) (todoId : String) : OrdiaaState :=
  let dateStr := formatDate date
  let updated := ((mapFind? s.todos dateStr).getD []).map (fun todo =>
    if todo.id == todoId then
      let newCompleted := !todo.completed
      { todo with
          completed := newCompleted
          status := if newCompleted then TodoStatus.done else TodoStatus.todo }
    else todo)
  { s with todos := mapInsert s.todos dateStr updated }

/-- A `Partial<TodoItem>`: each field optionally present. -/
structure TodoUpdate where
  id : Option String
  text : Option String
  completed : Option Bool
  status : Option TodoStatus
  priority : Option TodoPriority
  createdAt : Option String
deriving DecidableEq, Repr

/-- The empty partial update `{}`. -/
def TodoUpdate.empty : TodoUpdate :=
  { id := none, text := none, completed := none, status := none
    priority := none, createdAt := none }

/-- The object spread `{...todo, ...updates}`: fields present in
`updates` override those of `todo`. -/
def applyUpdate (todo : TodoItem) (u : TodoUpdate) : TodoItem :=
  { id := u.id.getD todo.id
    text := u.text.getD todo.text
    completed := u.completed.getD todo.completed
    status := (u.status).getD todo.status
    priority := u.priority.getD todo.priority
    createdAt := u.createdAt.getD todo.createdAt }

/-- `updateTodo(date, todoId, updates)`: maps over that date's sequence,
replacing matching item(s) by `{...todo, ...updates}`. -/
def updateTodo (s : OrdiaaState) (date : JsDate) (todoId : String)
    (u : TodoUpdate) : OrdiaaState :=
  let dateStr := formatDate date
  let updated := ((mapFind? s.todos dateStr).getD []).map (fun todo =>
    if todo.id == todoId then applyUpdate todo u else todo)
  { s with todos := mapInsert s.todos dateStr updated }

/-- `deleteTodo(date, todoId)`: filters out the item(s) with that id
from that date's sequence. -/
def deleteTodo (s : OrdiaaState) (date : JsDate) (todoId : String) : OrdiaaState :=
  let dateStr := formatDate date
  let remaining := ((mapFind? s.todos dateStr).getD []).filter (fun todo => todo.id != todoId)
  { s with todos := mapInsert s.todos dateStr remaining }

/-- `isHabitCompleted(habitId, date)`:
`state.completions[key] ?? false`. -/
def isHabitCompleted (s : OrdiaaState) (habitId : String) (date : JsDate) : Bool :=
  let key := habitId ++ "-" ++ formatDate date
  (mapFind? s.completions key).getD false

/-! #### IEEE-754 binary64 model for the rate computation

JS numbers are IEEE-754 binary64 doubles, and `(completed / total) * 100`
is computed with one correctly-rounded (round-to-nearest, ties-to-even)
floating-point operation per arithmetic operator; this matters — at 23
of 40 habits the double value of `(23/40)*100` is
`8092405580431359 / 2^47 = 57.49999999999999…`, not `57.5`.  Every
finite double is a dyadic rational; a nonnegative one is represented
below as a pair `(m, t) : Nat × Nat` denoting `m / 2^t`. -/

/-- Round the nonnegative rational `a / b` (with `b > 0`) to the nearest
integer, ties to even — the IEEE-754 default rounding of a significand. -/
def rne (a b : Nat) : Nat :=
  let m := a / b
  let r := a % b
  if 2 * r < b then m
  else if b < 2 * r then m + 1
  else if m % 2 = 0 then m else m + 1

/-- Floor of the base-2 logarithm of a positive `Nat`, computed with its
argument as fuel (the recursion halves `n`, so `n` steps always suffice);
kept structural so that concrete evaluation reduces in the kernel. -/
def floorLog2Aux : Nat → Nat → Nat
  | 0, _ => 0
  | fuel + 1, n => if 2 ≤ n then floorLog2Aux fuel (n / 2) + 1 else 0

/-- `floorLog2 n = ⌊log₂ n⌋` for `n > 0`. -/
def floorLog2 (n : Nat) : Nat := floorLog2Aux n n

/-- The binary exponent of the positive rational `a / b`: the unique
`e : ℤ` with `2^e ≤ a/b < 2^(e+1)`.  Since `⌊log₂ a⌋ - ⌊log₂ b⌋` is
either `e` or `e + 1`, one comparison decides which. -/
def ratExp (a b : Nat) : Int :=
  let e0 : Int := (floorLog2 a : Int) - (floorLog2 b : Int)
  if (if 0 ≤ e0 then b * 2 ^ e0.toNat ≤ a else b ≤ a * 2 ^ (-e0).toNat)
  then e0 else e0 - 1

/-- Round the nonnegative rational `a / b` to the nearest binary64 value
(round-to-nearest, ties-to-even), returned as a dyadic pair `(m, t)`
denoting `m / 2^t`.  The unit in the last place is `2^(max(e,-1022)-52)`
where `e` is the binary exponent (`max` accounts for the subnormal
range); overflow cannot arise here since every value in this module is
at most `100 + 1` ulp.  `a = 0` flows through with value `0`. -/
def fl64Nat (a b : Nat) : Nat × Nat :=
  let es := max (ratExp a b) (-1022) - 52
  if 0 ≤ es then (rne a (b * 2 ^ es.toNat) * 2 ^ es.toNat, 0)
  else (rne (a * 2 ^ (-es).toNat) b, (-es).toNat)

/-- `Math.round` on the nonnegative dyadic `m / 2^t`: the nearest
integer, ties toward positive infinity, i.e. `⌊m/2^t + 1/2⌋ =
(2m + 2^t) / 2^(t+1)` in `Nat` division.  (ECMAScript defines
`Math.round` exactly on the double's value, without further float
arithmetic.) -/
def roundHalfUp (m t : Nat) : Nat := (2 * m + 2 ^ t) / 2 ^ (t + 1)

/-- The JS expression `Math.round((k / n) * 100)` for exact integer
operands `k`, `n` (with `n > 0`): the division is one binary64 rounding
of `k/n`, the multiplication by the exact constant `100` is a second
binary64 rounding of the exact product, and `Math.round` then rounds the
resulting double half-up. -/
def jsRoundedPct (k n : Nat) : Nat :=
  let x := fl64Nat k n
  let y := fl64Nat (100 * x.1) (2 ^ x.2)
  roundHalfUp y.1 y.2

/-- `getCompletionRate(date)`: `0` when there are no habits, otherwise
`Math.round((completed / total) * 100)` — see `jsRoundedPct` — where
`completed` counts habits whose mark at `` `${h.id}-${dateStr}` `` is
truthy.  `completed` and `total` are array lengths, hence exact
doubles. -/
def getCompletionRate (s : OrdiaaState) (date : JsDate) : Int :=
  let dateStr := formatDate date
  let total := s.habits.length
  if total = 0 then 0
  else
    let completed :=
      (s.habits.filter (fun h =>
        (mapFind? s.completions (h.id ++ "-" ++ dateStr)).getD false)).length
    ((jsRoundedPct completed total : Nat) : Int)

/-- The `for (let i = days - 1; i >= 0; i--)` loop of
`getCompletionHistory`, pushing the entry for `today - i` at each step:
`historyLoop s today n` covers `i = n-1, …, 1, 0` in that order. -/
def historyLoop (s : OrdiaaState) (today : JsDate) : Nat → List (String × Int)
  | 0 => []
  | n + 1 =>
    (displayDate (today - (n : Int)), getCompletionRate s (today - (n : Int)))
      :: historyLoop s today n

/-- `getCompletionHistory(days)`: entries for the trailing window
`today - (days-1), …, today`, oldest first, each paired with its display
date and completion rate.  `today = new Date()` is passed explicitly. -/
def getCompletionHistory (s : OrdiaaState) (today : JsDate) (days : Nat) :
    List (String × Int) :=
  historyLoop s today days

/-- `addHabit(name, emoji)`: appends a new habit with
`id = Date.now().toString()` (clock reading passed in explicitly). -/
def addHabit (s : OrdiaaState) (now : Int) (name : String) (emoji : String) :
    OrdiaaState :=
  { s with habits := s.habits ++ [{ id := toString now, name := name, emoji := emoji }] }

/-- `deleteHabit(habitId)`: filters the habit out of the sequence;
`completions` is untouched. -/
def deleteHabit (s : OrdiaaState) (habitId : String) : OrdiaaState :=
  { s with habits := s.habits.filter (fun h => h.id != habitId) }

/-- The completion-rate formula of the claim, with the arithmetic the
program actually performs: `0` when `n = 0`, otherwise the rounded
binary64 evaluation of `(k/n) * 100` (`jsRoundedPct`), for `n` the
total habit count and `k` the count of habits with a true mark. -/
def specRoundedPct (k n : Nat) : Int :=
  if n = 0 then 0 else ((jsRoundedPct k n : Nat) : Int)

/-- A small concrete state used to instantiate theorems with
hypotheses: one stored todo list under the key of date `5`. -/
def sampleState : OrdiaaState :=
  ⟨[], [], [],
   [("5", [{ id := "a", text := "t", completed := false,
             status := TodoStatus.todo, priority := TodoPriority.medium,
             createdAt := "5" }])]⟩

/-- A habit with id `"h<i>"`, for bulk-building concrete states. -/
def mkHabit (i : Nat) : Habit := ⟨"h" ++ toString i, "", ""⟩

/-- A concrete state with 40 habits of which the first 23 are marked
completed on date `5`: the input where the double-precision rate
(`57`) differs from the exact `round(100·23/40) = 58`. -/
def fortyHabitsState : OrdiaaState :=
  ⟨(List.range 40).map mkHabit,
   (List.range 23).map (fun i => ("h" ++ toString i ++ "-5", true)),
   [], []⟩

/-- Two habits, neither completed on any date. -/
def twoHabitsState : OrdiaaState :=
  ⟨[⟨"a", "", ""⟩, ⟨"b", "", ""⟩], [], [], []⟩

/-- Two habits, both completed on date `5`. -/
def twoDoneState : OrdiaaState :=
  ⟨[⟨"a", "", ""⟩, ⟨"b", "", ""⟩], [("a-5", true), ("b-5", true)], [], []⟩

/-! ### Lemmas about the JS-object map embedding -/

theorem mapFind?_mapInsert_self (m : StrMap α) (k : String) (v : α) :
    mapFind? (mapInsert m k v) k = some v := by
  induction m with
  | nil => simp [mapInsert, mapFind?]
  | cons p rest ih =>
    obtain ⟨k', v'⟩ := p
    by_cases h : k' = k
    · subst h
      simp [mapInsert, mapFind?]
    · simp [mapInsert, mapFind?, h, ih]

theorem mapFind?_mapInsert_ne (m : StrMap α) (k k' : String) (v : α)
    (h : k' ≠ k) : mapFind? (mapInsert m k v) k' = mapFind? m k' := by
  induction m with
  | nil => simp [mapInsert, mapFind?, Ne.symm h]
  | cons p rest ih =>
    obtain ⟨k₁, v₁⟩ := p
    by_cases h₁ : k₁ = k
    · subst h₁
      simp [mapInsert, mapFind?, Ne.symm h]
    · simp only [mapInsert, beq_iff_eq, h₁, if_false, mapFind?, ih]

theorem mapInsert_find?_eq (m : StrMap α) (k : String) (v : α)
    (h : mapFind? m k = some v) : mapInsert m k v = m := by
  induction m with
  | nil => simp [mapFind?] at h
  | cons p rest ih =>
    obtain ⟨k₁, v₁⟩ := p
    by_cases h₁ : k₁ = k
    · subst h₁
      simp only [mapFind?, beq_self_eq_true, if_true, Option.some.injEq] at h
      simp [mapInsert, h]
    · simp only [mapFind?, beq_iff_eq, h₁, if_false] at h
      simp [mapInsert, h₁, ih h]

theorem list_map_self {α : Type} (l : List α) (f : α → α)
    (h : ∀ x ∈ l, f x = x) : l.map f = l := by
  induction l with
  | nil => rfl
  | cons a t ih =>
    simp only [List.map_cons, h a (List.mem_cons_self a t)]
    rw [ih fun x hx => h x (List.mem_cons_of_mem a hx)]

/-! ### Claim theorems -/

/-- C2: for every habit id `h`, date `d` and state, calling
`toggleHabit(h, d)` twice in succession leaves `isHabitCompleted(h, d)`
equal to its value before the two calls (an absent key counts as
`false`). -/
theorem toggleHabit_twice_isHabitCompleted (s : OrdiaaState) (h : String)
    (d : JsDate) :
    isHabitCompleted (toggleHabit (toggleHabit s h d) h d) h d =
      isHabitCompleted s h d := by
  simp only [isHabitCompleted, toggleHabit, mapFind?_mapInsert_self,
    Option.getD_some, Bool.not_not]

/-- C5: `addTodo(d, text, priority, status)` appends to the end of `d`'s
todo sequence exactly one new item whose `text`, `priority` and `status`
are the given arguments, whose `completed` equals `status == "done"`,
and whose `createdAt` equals `formatDate(d)`; the items already present
are unchanged. -/
theorem addTodo_appends (s : OrdiaaState) (now : Int) (d : JsDate)
    (text : String) (p : TodoPriority) (st : TodoStatus) :
    getTodos (addTodo s now d text p st) d =
      getTodos s d ++
        [{ id := toString now
           text := text
           completed := st == TodoStatus.done
           status := st
           priority := p
           createdAt := formatDate d }] := by
  simp only [getTodos, addTodo, mapFind?_mapInsert_self, Option.getD_some]

/-- C7: `deleteHabit(h)` removes the habit(s) with id `h` from the habit
sequence, leaves the completions mapping entirely unchanged, and every
completion mark stays queryable: `isHabitCompleted` is unchanged for all
habit ids and dates. -/
theorem deleteHabit_keeps_completions (s : OrdiaaState) (habitId : String) :
    (deleteHabit s habitId).habits = s.habits.filter (fun h => h.id != habitId) ∧
    (deleteHabit s habitId).completions = s.completions ∧
    ∀ (h : String) (d : JsDate),
      isHabitCompleted (deleteHabit s habitId) h d = isHabitCompleted s h d := by
  refine ⟨rfl, rfl, fun h d => rfl⟩

/-- C8: `getLog(d)` right after `updateLog(d, text)` returns `text`
(also for the empty string), and `getLog(d)` with no stored entry for
`d`'s key returns the empty string. -/
theorem getLog_updateLog (s : OrdiaaState) (d : JsDate) (text : String) :
    getLog (updateLog s d text) d = text ∧
    (mapFind? s.logs (formatDate d) = none → getLog s d = "") := by
  constructor
  · simp only [getLog, updateLog, mapFind?_mapInsert_self]
    by_cases h : text = ""
    · simp [h]
    · simp [h]
  · intro h
    simp only [getLog, h]

/-- C8 witness: the theorem applied at a concrete state (empty logs) and
date, both hypotheses discharged by evaluation. -/
theorem getLog_updateLog_witness :
    getLog (updateLog ⟨[], [], [], []⟩ 3 "") 3 = "" ∧
    (mapFind? (⟨[], [], [], []⟩ : OrdiaaState).logs (formatDate 3) = none →
      getLog ⟨[], [], [], []⟩ 3 = "") :=
  getLog_updateLog ⟨[], [], [], []⟩ 3 ""

/-- C9: after `addTodo(d, "task", high, "done")` followed by
`updateTodo(d, id, {status: "doing"})` on the item just added, the
todo sequence for `d` contains an item with `completed = true` and
`status = "doing"`: `updateTodo` merges only the given fields and does
not synchronize `completed` with `status`. -/
theorem updateTodo_no_status_sync :
    ∃ t ∈ getTodos
        (updateTodo
          (addTodo ⟨[], [], [], []⟩ 42 0 "task" TodoPriority.high TodoStatus.done)
          0 "42" { TodoUpdate.empty with status := some TodoStatus.doing }) 0,
      t.completed = true ∧ t.status = TodoStatus.doing := by
  decide

/-- C10: every mutation changes only its own top-level field of the
state record and leaves the other three unchanged: `toggleHabit` only
`completions`; `updateLog` only `logs`; `addTodo`, `toggleTodo`,
`updateTodo`, `deleteTodo` only `todos`; `addHabit`, `deleteHabit` only
`habits`. -/
theorem mutations_frame (s : OrdiaaState) (habitId todoId name emoji text : String)
    (d : JsDate) (now : Int) (p : TodoPriority) (st : TodoStatus) (u : TodoUpdate) :
    ((toggleHabit s habitId d).habits = s.habits ∧
     (toggleHabit s habitId d).logs = s.logs ∧
     (toggleHabit s habitId d).todos = s.todos) ∧
    ((updateLog s d text).habits = s.habits ∧
     (updateLog s d text).completions = s.completions ∧
     (updateLog s d text).todos = s.todos) ∧
    ((addTodo s now d text p st).habits = s.habits ∧
     (addTodo s now d text p st).completions = s.completions ∧
     (addTodo s now d text p st).logs = s.logs) ∧
    ((toggleTodo s d todoId).habits = s.habits ∧
     (toggleTodo s d todoId).completions = s.completions ∧
     (toggleTodo s d todoId).logs = s.logs) ∧
    ((updateTodo s d todoId u).habits = s.habits ∧
     (updateTodo s d todoId u).completions = s.completions ∧
     (updateTodo s d todoId u).logs = s.logs) ∧
    ((deleteTodo s d todoId).habits = s.habits ∧
     (deleteTodo s d todoId).completions = s.completions ∧
     (deleteTodo s d todoId).logs = s.logs) ∧
    ((addHabit s now name emoji).completions = s.completions ∧
     (addHabit s now name emoji).logs = s.logs ∧
     (addHabit s now name emoji).todos = s.todos) ∧
    ((deleteHabit s habitId).completions = s.completions ∧
     (deleteHabit s habitId).logs = s.logs ∧
     (deleteHabit s habitId).todos = s.todos) := by
  exact ⟨⟨rfl, rfl, rfl⟩, ⟨rfl, rfl, rfl⟩, ⟨rfl, rfl, rfl⟩, ⟨rfl, rfl, rfl⟩,
    ⟨rfl, rfl, rfl⟩, ⟨rfl, rfl, rfl⟩, ⟨rfl, rfl, rfl⟩, ⟨rfl, rfl, rfl⟩⟩

theorem rne_mul_self (n b : Nat) (hn : 0 < n) : rne (n * b) n = b := by
  unfold rne
  have hd : n * b / n = b := Nat.mul_div_cancel_left b hn
  have hm : n * b % n = 0 := Nat.mul_mod_right n b
  simp [hd, hm, hn]

theorem rne_zero (b : Nat) (hb : 0 < b) : rne 0 b = 0 := by
  unfold rne
  simp [Nat.zero_div, Nat.zero_mod, hb]

theorem fl64Nat_self (n : Nat) (hn : 0 < n) : fl64Nat n n = (2 ^ 52, 52) := by
  unfold fl64Nat ratExp
  simp only [sub_self]
  norm_num
  constructor
  · rw [show ((52 : Int)).toNat = 52 from rfl, rne_mul_self n (2 ^ 52) hn]
    norm_num
  · rfl

theorem fl64Nat_zero_fst (b : Nat) (hb : 0 < b) : (fl64Nat 0 b).1 = 0 := by
  unfold fl64Nat
  dsimp only
  split
  · rw [rne_zero (b * 2 ^ ((ratExp 0 b ⊔ -1022 - 52).toNat))
      (Nat.mul_pos hb (Nat.pos_pow_of_pos _ (by norm_num)))]
    simp
  · simp [rne_zero _ hb]

theorem roundHalfUp_zero (t : Nat) : roundHalfUp 0 t = 0 := by
  unfold roundHalfUp
  rw [Nat.mul_zero, Nat.zero_add]
  exact Nat.div_eq_of_lt (Nat.pow_lt_pow_right (by norm_num) (by omega))

theorem jsRoundedPct_self (n : Nat) (hn : 0 < n) : jsRoundedPct n n = 100 := by
  unfold jsRoundedPct
  dsimp only
  rw [fl64Nat_self n hn]
  decide

theorem jsRoundedPct_zero (n : Nat) (hn : 0 < n) : jsRoundedPct 0 n = 0 := by
  unfold jsRoundedPct
  dsimp only
  rw [fl64Nat_zero_fst n hn, Nat.mul_zero]
  rw [fl64Nat_zero_fst _ (Nat.pos_pow_of_pos _ (by norm_num))]
  exact roundHalfUp_zero _

/-- C1 counterexample: at 40 habits of which 23 are completed, the
program computes `Math.round` of the binary64 value
`57.49999999999999…` and returns `57`, while the claimed exact
`round(100·23/40) = round(57.5)` is `58`. -/
theorem getCompletionRate_counterexample :
    getCompletionRate fortyHabitsState 5 ≠
      round ((100 * ((fortyHabitsState.habits.filter (fun h =>
        (mapFind? fortyHabitsState.completions
          (h.id ++ "-" ++ formatDate 5)).getD false)).length : ℚ)) /
        ((fortyHabitsState.habits.length : ℚ))) := by
  have h1 : getCompletionRate fortyHabitsState 5 = 57 := by decide
  have hk : ((fortyHabitsState.habits.filter (fun h =>
      (mapFind? fortyHabitsState.completions
        (h.id ++ "-" ++ formatDate 5)).getD false)).length) = 23 := by decide
  have hn : fortyHabitsState.habits.length = 40 := by decide
  rw [h1, hk, hn]
  have h2 : ((100 : ℚ) * ((23 : Nat) : ℚ)) / (((40 : Nat) : ℚ)) = 115 / 2 := by
    norm_num
  rw [h2]
  have h3 : round ((115 : ℚ) / 2) = 58 := by
    rw [round_eq]
    norm_num
  rw [h3]
  omega

/-- C1 (amended): `getCompletionRate(d)` equals the claim's formula with
the arithmetic the program performs — `0` when `n = 0`, otherwise
`Math.round` of the binary64 evaluation of `(k/n)·100` (which can differ
by one from the exact `round(100·k/n)` at rounding boundaries) — where
`n` is the total habit count and `k` the count of habits with a true
mark for `d`'s canonical key; in particular the result is `0` when
`k = 0` and `100` when `k = n`. -/
theorem getCompletionRate_amended (s : OrdiaaState) (d : JsDate) :
    getCompletionRate s d =
      specRoundedPct
        ((s.habits.filter (fun h =>
          (mapFind? s.completions (h.id ++ "-" ++ formatDate d)).getD false)).length)
        s.habits.length ∧
    (s.habits.length = 0 → getCompletionRate s d = 0) ∧
    (s.habits.length ≠ 0 →
      (((s.habits.filter (fun h =>
          (mapFind? s.completions (h.id ++ "-" ++ formatDate d)).getD false)).length = 0 →
        getCompletionRate s d = 0) ∧
       ((s.habits.filter (fun h =>
          (mapFind? s.completions (h.id ++ "-" ++ formatDate d)).getD false)).length =
            s.habits.length →
        getCompletionRate s d = 100))) := by
  refine ⟨rfl, fun h0 => ?_, fun hn => ⟨fun hk => ?_, fun hk => ?_⟩⟩
  · unfold getCompletionRate
    simp [h0]
  · unfold getCompletionRate
    dsimp only
    rw [if_neg hn, hk, jsRoundedPct_zero s.habits.length (Nat.pos_of_ne_zero hn)]
    rfl
  · unfold getCompletionRate
    dsimp only
    rw [if_neg hn, hk, jsRoundedPct_self s.habits.length (Nat.pos_of_ne_zero hn)]
    rfl

/-- C1 witness: the amended theorem applied at concrete states — the
40-habit counterexample state for the formula, the empty state for
`n = 0`, two habits with no marks for `k = 0`, and two habits both
marked for `k = n` — with every hypothesis discharged by evaluation. -/
theorem getCompletionRate_amended_witness :
    getCompletionRate fortyHabitsState 5 =
      specRoundedPct
        ((fortyHabitsState.habits.filter (fun h =>
          (mapFind? fortyHabitsState.completions
            (h.id ++ "-" ++ formatDate 5)).getD false)).length)
        fortyHabitsState.habits.length ∧
    getCompletionRate ⟨[], [], [], []⟩ 5 = 0 ∧
    getCompletionRate twoHabitsState 5 = 0 ∧
    getCompletionRate twoDoneState 5 = 100 :=
  ⟨(getCompletionRate_amended fortyHabitsState 5).1,
   (getCompletionRate_amended ⟨[], [], [], []⟩ 5).2.1 (by decide),
   ((getCompletionRate_amended twoHabitsState 5).2.2 (by decide)).1 (by decide),
   ((getCompletionRate_amended twoDoneState 5).2.2 (by decide)).2 (by decide)⟩

theorem historyLoop_length (s : OrdiaaState) (today : JsDate) :
    ∀ n, (historyLoop s today n).length = n := by
  intro n
  induction n with
  | zero => rfl
  | succ n ih => simp [historyLoop, ih]

theorem historyLoop_getElem? (s : OrdiaaState) (today : JsDate) :
    ∀ n j, j < n →
      (historyLoop s today n)[j]? =
        some (displayDate (today - ((n - 1 - j : Nat) : Int)),
              getCompletionRate s (today - ((n - 1 - j : Nat) : Int))) := by
  intro n
  induction n with
  | zero => intro j hj; omega
  | succ n ih =>
    intro j hj
    match j with
    | 0 =>
      simp only [historyLoop, List.getElem?_cons_zero, Nat.add_sub_cancel,
        Nat.sub_zero]
    | j' + 1 =>
      have hj' : j' < n := by omega
      have heq : n + 1 - 1 - (j' + 1) = n - 1 - j' := by omega
      simp only [historyLoop, List.getElem?_cons_succ, ih j' hj', heq]

theorem historyLoop_getLast? (s : OrdiaaState) (today : JsDate) :
    ∀ n, 0 < n →
      (historyLoop s today n).getLast? =
        some (displayDate today, getCompletionRate s today) := by
  intro n hn
  rw [List.getLast?_eq_getElem?, historyLoop_length]
  have h := historyLoop_getElem? s today n (n - 1) (by omega)
  have heq : n - 1 - (n - 1) = 0 := by omega
  rw [heq] at h
  simpa using h

/-- C3: `getCompletionHistory(days)` returns exactly `days` entries, one
per calendar day of the trailing window ending today, oldest first — the
entry at index `j` covers the day `today - (days - 1 - j)` and carries
its display date and `getCompletionRate` — and when `days > 0` the last
entry is today's. -/
theorem getCompletionHistory_spec (s : OrdiaaState) (today : JsDate) (days : Nat) :
    (getCompletionHistory s today days).length = days ∧
    (∀ j, j < days →
      (getCompletionHistory s today days)[j]? =
        some (displayDate (today - ((days - 1 - j : Nat) : Int)),
              getCompletionRate s (today - ((days - 1 - j : Nat) : Int)))) ∧
    (0 < days →
      (getCompletionHistory s today days).getLast? =
        some (displayDate today, getCompletionRate s today)) :=
  ⟨historyLoop_length s today days,
   fun j hj => historyLoop_getElem? s today days j hj,
   historyLoop_getLast? s today days⟩

/-- C3 witness: the theorem instantiated at the empty state, `today = 7`
and `days = 3`, hypotheses discharged by evaluation. -/
theorem getCompletionHistory_spec_witness :
    (getCompletionHistory ⟨[], [], [], []⟩ 7 3).length = 3 ∧
    (getCompletionHistory ⟨[], [], [], []⟩ 7 3)[0]? =
      some (displayDate (7 - ((3 - 1 - 0 : Nat) : Int)),
            getCompletionRate ⟨[], [], [], []⟩ (7 - ((3 - 1 - 0 : Nat) : Int))) ∧
    (getCompletionHistory ⟨[], [], [], []⟩ 7 3).getLast? =
      some (displayDate 7, getCompletionRate ⟨[], [], [], []⟩ 7) :=
  ⟨(getCompletionHistory_spec ⟨[], [], [], []⟩ 7 3).1,
   (getCompletionHistory_spec ⟨[], [], [], []⟩ 7 3).2.1 0 (by decide),
   (getCompletionHistory_spec ⟨[], [], [], []⟩ 7 3).2.2 (by decide)⟩

theorem todos_noop_lists (todoId : String) (u : TodoUpdate) (l : List TodoItem)
    (hid : ∀ t ∈ l, t.id ≠ todoId) :
    l.map (fun todo =>
      if todo.id == todoId then
        let newCompleted := !todo.completed
        { todo with
            completed := newCompleted
            status := if newCompleted then TodoStatus.done else TodoStatus.todo }
      else todo) = l ∧
    l.map (fun todo => if todo.id == todoId then applyUpdate todo u else todo) = l ∧
    l.filter (fun todo => todo.id != todoId) = l := by
  refine ⟨list_map_self _ _ ?_, list_map_self _ _ ?_, List.filter_eq_self.mpr ?_⟩
  · intro t ht
    simp [hid t ht]
  · intro t ht
    simp [hid t ht]
  · intro t ht
    simp [hid t ht]

/-- C4 (amended): on a date `d` whose todo sequence is present, each of
`toggleTodo`, `updateTodo`, `deleteTodo` with an id not occurring in the
sequence leaves the state exactly unchanged; when `d` has no todo
sequence, each stores an empty sequence under `d`'s key (and changes
nothing else); in both cases `getTodos` is unchanged on every date. -/
theorem missing_todo_noop (s : OrdiaaState) (d : JsDate) (todoId : String)
    (u : TodoUpdate) (hid : ∀ t ∈ getTodos s d, t.id ≠ todoId) :
    ((mapFind? s.todos (formatDate d)).isSome →
      toggleTodo s d todoId = s ∧ updateTodo s d todoId u = s ∧
        deleteTodo s d todoId = s) ∧
    (mapFind? s.todos (formatDate d) = none →
      toggleTodo s d todoId = { s with todos := mapInsert s.todos (formatDate d) [] } ∧
      updateTodo s d todoId u = { s with todos := mapInsert s.todos (formatDate d) [] } ∧
      deleteTodo s d todoId = { s with todos := mapInsert s.todos (formatDate d) [] }) ∧
    (∀ d' : JsDate,
      getTodos (toggleTodo s d todoId) d' = getTodos s d' ∧
      getTodos (updateTodo s d todoId u) d' = getTodos s d' ∧
      getTodos (deleteTodo s d todoId) d' = getTodos s d') := by
  cases hfind : mapFind? s.todos (formatDate d) with
  | some l =>
    have hl : getTodos s d = l := by simp [getTodos, hfind]
    rw [hl] at hid
    obtain ⟨h1, h2, h3⟩ := todos_noop_lists todoId u l hid
    have e1 : toggleTodo s d todoId = s := by
      simp only [toggleTodo, hfind, Option.getD_some, h1,
        mapInsert_find?_eq s.todos (formatDate d) l hfind]
    have e2 : updateTodo s d todoId u = s := by
      simp only [updateTodo, hfind, Option.getD_some, h2,
        mapInsert_find?_eq s.todos (formatDate d) l hfind]
    have e3 : deleteTodo s d todoId = s := by
      simp only [deleteTodo, hfind, Option.getD_some, h3,
        mapInsert_find?_eq s.todos (formatDate d) l hfind]
    refine ⟨fun _ => ⟨e1, e2, e3⟩, fun hnone => ?_, fun d' => ?_⟩
    · cases hnone
    · rw [e1, e2, e3]
      exact ⟨rfl, rfl, rfl⟩
  | none =>
    have e1 : toggleTodo s d todoId =
        { s with todos := mapInsert s.todos (formatDate d) [] } := by
      simp only [toggleTodo, hfind, Option.getD_none, List.map_nil]
    have e2 : updateTodo s d todoId u =
        { s with todos := mapInsert s.todos (formatDate d) [] } := by
      simp only [updateTodo, hfind, Option.getD_none, List.map_nil]
    have e3 : deleteTodo s d todoId =
        { s with todos := mapInsert s.todos (formatDate d) [] } := by
      simp only [deleteTodo, hfind, Option.getD_none, List.filter_nil]
    have frame : ∀ d' : JsDate,
        getTodos { s with todos := mapInsert s.todos (formatDate d) [] } d' =
          getTodos s d' := by
      intro d'
      by_cases hd : formatDate d' = formatDate d
      · simp only [getTodos, hd, mapFind?_mapInsert_self, hfind]
        rfl
      · simp only [getTodos, mapFind?_mapInsert_ne s.todos (formatDate d)
          (formatDate d') [] hd]
    refine ⟨fun hsome => ?_, fun _ => ⟨e1, e2, e3⟩, fun d' => ?_⟩
    · simp at hsome
    · rw [e1, e2, e3]
      exact ⟨frame d', frame d', frame d'⟩

/-- C4 counterexample: on the empty state (no todo sequence stored for
the date), each of the three mutations changes the state — an empty
sequence is stored under the date's key — so they are not silent
no-ops as claimed. -/
theorem missing_todo_counterexample :
    toggleTodo ⟨[], [], [], []⟩ 0 "x" ≠ ⟨[], [], [], []⟩ ∧
    updateTodo ⟨[], [], [], []⟩ 0 "x" TodoUpdate.empty ≠ ⟨[], [], [], []⟩ ∧
    deleteTodo ⟨[], [], [], []⟩ 0 "x" ≠ ⟨[], [], [], []⟩ := by
  decide

/-- C4 witness: the amended theorem applied at `sampleState` (whose todo
sequence for date `5` is present and does not contain id `"zz"`), all
hypotheses discharged by evaluation. -/
theorem missing_todo_noop_witness :
    toggleTodo sampleState 5 "zz" = sampleState ∧
    updateTodo sampleState 5 "zz" TodoUpdate.empty = sampleState ∧
    deleteTodo sampleState 5 "zz" = sampleState :=
  (missing_todo_noop sampleState 5 "zz" TodoUpdate.empty (by decide)).1 (by decide)

theorem list_map_eq_set {α : Type} (l : List α) (f : α → α) :
    ∀ (i : Nat) (hi : i < l.length),
      (∀ j (hj : j < l.length), j ≠ i → f (l.get ⟨j, hj⟩) = l.get ⟨j, hj⟩) →
      l.map f = l.set i (f (l.get ⟨i, hi⟩)) := by
  induction l with
  | nil =>
    intro i hi
    exact absurd hi (by simp)
  | cons a t ih =>
    intro i hi hfix
    match i with
    | 0 =>
      simp only [List.map_cons, List.get, List.set]
      congr 1
      apply list_map_self
      intro x hx
      obtain ⟨⟨j, hj⟩, hget⟩ := List.mem_iff_get.mp hx
      rw [← hget]
      exact hfix (j + 1) (by simpa using Nat.succ_lt_succ hj) (by omega)
    | i' + 1 =>
      simp only [List.map_cons, List.set, List.get_cons_succ]
      congr 1
      · exact hfix 0 (by simp) (by omega)
      · exact ih i' (by simpa using Nat.lt_of_succ_lt_succ hi) fun j hj hne =>
          hfix (j + 1) (by simpa using Nat.succ_lt_succ hj) (by omega)

/-- C6: on a date `d` whose todo sequence contains the item with id
`todoId` at position `i` and at no other position, `toggleTodo(d,
todoId)` replaces exactly that item by a copy with `completed` flipped
and `status` set to `"done"` when the new `completed` is true and
`"todo"` when it is false; every other field and every other item is
unchanged. -/
theorem toggleTodo_found (s : OrdiaaState) (d : JsDate) (todoId : String)
    (i : Nat) (hi : i < (getTodos s d).length)
    (hfound : ((getTodos s d).get ⟨i, hi⟩).id = todoId)
    (huniq : ∀ j (hj : j < (getTodos s d).length), j ≠ i →
      ((getTodos s d).get ⟨j, hj⟩).id ≠ todoId) :
    getTodos (toggleTodo s d todoId) d =
      (getTodos s d).set i
        { (getTodos s d).get ⟨i, hi⟩ with
            completed := !((getTodos s d).get ⟨i, hi⟩).completed
            status := if !((getTodos s d).get ⟨i, hi⟩).completed
                      then TodoStatus.done else TodoStatus.todo } := by
  have hmain : getTodos (toggleTodo s d todoId) d =
      (getTodos s d).map (fun todo =>
        if todo.id == todoId then
          let newCompleted := !todo.completed
          { todo with
              completed := newCompleted
              status := if newCompleted then TodoStatus.done else TodoStatus.todo }
        else todo) := by
    simp only [toggleTodo, getTodos, mapFind?_mapInsert_self, Option.getD_some]
  rw [hmain, list_map_eq_set (getTodos s d) _ i hi ?_]
  · congr 1
    have hfound' : (getTodos s d)[i].id = todoId := by simpa using hfound
    simp [hfound']
  · intro j hj hne
    have hne' : (getTodos s d)[j].id ≠ todoId := by simpa using huniq j hj hne
    simp [hne']

/-- C6 witness: the theorem applied at `sampleState`, whose todo
sequence for date `5` holds exactly one item, with id `"a"`, at
position `0`; all hypotheses discharged by evaluation. -/
theorem toggleTodo_found_witness :
    getTodos (toggleTodo sampleState 5 "a") 5 =
      (getTodos sampleState 5).set 0
        { (getTodos sampleState 5).get ⟨0, by decide⟩ with
            completed := !((getTodos sampleState 5).get ⟨0, by decide⟩).completed
            status := if !((getTodos sampleState 5).get ⟨0, by decide⟩).completed
                      then TodoStatus.done else TodoStatus.todo } :=
  toggleTodo_found sampleState 5 "a" 0 (by decide) (by decide) (by decide)
